import Mathlib

/-!
Shallow embedding of `src/server.js` of the Hexagon_ACP_demo repository.

JavaScript strings are modelled as Lean `String` / `List Char`; JS regex
replacement and splitting are implemented as character-level scanners that
are equivalent to the leftmost-match semantics of the concrete regexes used
in the source (each such scanner carries a comment naming the regex it
implements).  JS `undefined`/`null` object fields are modelled as `Option`;
JS numbers appearing in the claims are integers (inventory quantities) or
decimal strings (prices, parsed into `ℚ`).  I/O (the Shopify fetch, the
file system, the Stripe client, HMAC/base64 computation) is modelled by
passing the external result in as an explicit argument, and mutable module
state (`baseProductsCache`, the products file) as an explicit state value
threaded through `refreshBaseProducts`.
-/

namespace HexDemo

/-- The ECMAScript whitespace set matched by `\s` (and trimmed by
`String.prototype.trim`): space, tab, LF, VT, FF, CR, NBSP, and the
Unicode space separators, line/paragraph separators and BOM. -/
def isJsSpace (c : Char) : Bool :=
  let n := c.toNat
  n == 32 || n == 9 || n == 10 || n == 11 || n == 12 || n == 13 ||
    n == 160 || n == 0x1680 || (0x2000 ≤ n && n ≤ 0x200A) ||
    n == 0x2028 || n == 0x2029 || n == 0x202F || n == 0x205F ||
    n == 0x3000 || n == 0xFEFF

/-- JS `String.prototype.toLowerCase`, restricted to the ASCII range
(the catalog data exercised by the spec is ASCII). -/
def jsToLower (s : String) : String :=
  String.mk (s.toList.map Char.toLower)

/-- Boolean prefix test on character lists. -/
def listIsPrefixOfB : List Char → List Char → Bool
  | [], _ => true
  | _ :: _, [] => false
  | a :: as, b :: bs => a == b && listIsPrefixOfB as bs

/-- Boolean infix (contiguous substring) test on character lists. -/
def listIsInfixOfB (needle : List Char) : List Char → Bool
  | [] => listIsPrefixOfB needle []
  | c :: rest => listIsPrefixOfB needle (c :: rest) || listIsInfixOfB needle rest

/-- JS `haystack.includes(needle)`: substring containment. -/
def stringIncludes (haystack needle : String) : Bool :=
  listIsInfixOfB needle.toList haystack.toList

/-- Split a character list at every character satisfying `p`, keeping
empty pieces (the behaviour of JS `String.prototype.split` on a
single-character class; grouping the separators as `[...]+` and splitting
on single separators agree once empty pieces are filtered out, which
`tokenize` below does). -/
def splitOnSep (p : Char → Bool) : List Char → List (List Char)
  | [] => [[]]
  | c :: rest =>
    if p c then
      [] :: splitOnSep p rest
    else
      match splitOnSep p rest with
      | [] => [[c]]
      | piece :: pieces => (c :: piece) :: pieces

/-- Separator class of the `tokenize` regex `[\s,]+`: whitespace or comma. -/
def isTokenSep (c : Char) : Bool :=
  isJsSpace c || c == ','

/-- `tokenize` from `src/server.js`: lower-case, split on runs of
whitespace/commas (`/[\s,]+/`), drop empty tokens (`filter(Boolean)`). -/
def tokenize (text : String) : List String :=
  (((jsToLower text).toList |> splitOnSep isTokenSep).map String.mk).filter
    (fun t => t != "")

/-- A Shopify product image (only `src` is read by the server). -/
structure Image where
  src : String
deriving DecidableEq

/-- A product variant; fields not read by `src/server.js` are omitted.
`none` models an absent (`undefined`) JS field. -/
structure Variant where
  inventory_quantity : Option Int := none
  price : Option String := none
deriving DecidableEq

/-- A catalog product as stored in the caches.  `inventory` is the extra
field spliced in by `loadProducts` (absent, i.e. `none`, on raw catalog
entries). -/
structure Product where
  id : String
  title : String := ""
  body_html : Option String := none
  product_type : Option String := none
  tags : Option String := none
  status : Option String := none
  variants : Option (List Variant) := none
  image : Option Image := none
  images : List Image := []
  inventory : Option Int := none
deriving DecidableEq

/-- The ephemeral best-match record built inside `selectProduct`. -/
structure MatchResult where
  id : String
  title : String
  description : String
  image : String
  tags : String
  product_type : String
  price_display : Option String
deriving DecidableEq

/-- `buildSearchableString`: join the truthy sections of
title/product_type/tags with spaces and lower-case the result
(`filter(Boolean)` drops absent and empty sections; absent is modelled as
`""` via `getD`). -/
def joinSpaceSep : List String → String
  | [] => ""
  | [s] => s
  | s :: rest => s ++ " " ++ joinSpaceSep rest

/-- `buildSearchableString` from `src/server.js`. -/
def buildSearchableString (p : Product) : String :=
  jsToLower (joinSpaceSep
    (([p.title, p.product_type.getD "", p.tags.getD ""]).filter (fun s => s != "")))

/-- `scoreProduct` from `src/server.js`: `reduce` counting the keywords
that occur as substrings of the search target. -/
def scoreProduct (keywords : List String) (searchTarget : String) : Nat :=
  keywords.foldl (fun score term => if stringIncludes searchTarget term then score + 1 else score) 0

/-- The keyword-overlap score of a product: `scoreProduct` applied to the
product's searchable string. -/
def productScore (keywords : List String) (p : Product) : Nat :=
  scoreProduct keywords (buildSearchableString p)

/-- Scanner for the regex `/<[^>]+>/g` of `normalizeDescription`, replacing
each match by a single space.  State `some revBuf` means a `<` has been
read and `revBuf` (reversed) holds the non-`>` characters read since; a
match completes at the next `>` provided at least one character intervened,
otherwise the buffered text is literal. -/
def stripTagsGo : Option (List Char) → List Char → List Char
  | none, [] => []
  | some revBuf, [] => '<' :: revBuf.reverse
  | none, c :: rest =>
    if c == '<' then stripTagsGo (some []) rest
    else c :: stripTagsGo none rest
  | some revBuf, c :: rest =>
    if c == '>' then
      match revBuf with
      | [] => '<' :: '>' :: stripTagsGo none rest
      | _ :: _ => ' ' :: stripTagsGo none rest
    else stripTagsGo (some (c :: revBuf)) rest

/-- `html.replace(/<[^>]+>/g, ' ')` from `normalizeDescription`. -/
def stripTags (html : String) : String :=
  String.mk (stripTagsGo none html.toList)

/-- The character class `[a-z#0-9]` with the `i` flag of the entity regex. -/
def isEntChar (c : Char) : Bool :=
  ('a' ≤ c && c ≤ 'z') || ('A' ≤ c && c ≤ 'Z') || c == '#' || ('0' ≤ c && c ≤ '9')

/-- The `entityMap` lookup of `decodeEntities` (keys are the six
lower-case entities; anything else maps to itself via `?? entity`).
`Char.ofNat 39` is the apostrophe character. -/
def entLookup (entity : String) : Option String :=
  if entity == "&amp;" then some "&"
  else if entity == "&lt;" then some "<"
  else if entity == "&gt;" then some ">"
  else if entity == "&quot;" then some (String.mk ['"'])
  else if entity == "&#39;" then some (String.mk [Char.ofNat 39])
  else if entity == "&nbsp;" then some " "
  else none

/-- Scanner for the regex `/&[a-z#0-9]+;/gi` of `decodeEntities`.  State
`some revBuf` means an `&` has been read and `revBuf` (reversed) holds the
class characters read since; a match completes at a `;` provided at least
one class character intervened (the class excludes `;`, so the greedy run
must end exactly at the `;` for the regex to match — no backtracking can
succeed otherwise). -/
def decodeEntitiesGo : Option (List Char) → List Char → List Char
  | none, [] => []
  | some revBuf, [] => '&' :: revBuf.reverse
  | none, c :: rest =>
    if c == '&' then decodeEntitiesGo (some []) rest
    else c :: decodeEntitiesGo none rest
  | some revBuf, c :: rest =>
    if c == ';' then
      match revBuf with
      | [] => '&' :: ';' :: decodeEntitiesGo none rest
      | _ :: _ =>
        let entity := String.mk ('&' :: revBuf.reverse ++ [';'])
        ((entLookup entity).getD entity).toList ++ decodeEntitiesGo none rest
    else if isEntChar c then decodeEntitiesGo (some (c :: revBuf)) rest
    else if c == '&' then '&' :: revBuf.reverse ++ decodeEntitiesGo (some []) rest
    else '&' :: revBuf.reverse ++ c :: decodeEntitiesGo none rest

/-- `decodeEntities` from `src/server.js`. -/
def decodeEntities (text : String) : String :=
  String.mk (decodeEntitiesGo none text.toList)

/-- Scanner for `/\s+/g → ' '`: collapse each maximal whitespace run to a
single space.  The flag records whether the previous character was part of
a whitespace run. -/
def collapseWsGo : Bool → List Char → List Char
  | _, [] => []
  | inRun, c :: rest =>
    if isJsSpace c then
      if inRun then collapseWsGo true rest
      else ' ' :: collapseWsGo true rest
    else c :: collapseWsGo false rest

/-- `decoded.replace(/\s+/g, ' ')` from `normalizeDescription`. -/
def collapseWs (s : String) : String :=
  String.mk (collapseWsGo false s.toList)

/-- JS `String.prototype.trim`: strip leading and trailing whitespace. -/
def jsTrim (s : String) : String :=
  String.mk (((s.toList.dropWhile isJsSpace).reverse.dropWhile isJsSpace).reverse)

/-- `normalizeDescription` from `src/server.js` (the `html = ''` default
parameter is applied by the caller model as `Option.getD ""`). -/
def normalizeDescription (html : String) : String :=
  jsTrim (collapseWs (decodeEntities (stripTags html)))

/-- Digit run to natural number. -/
def digitsToNat (l : List Char) : Nat :=
  l.foldl (fun n c => 10 * n + (c.toNat - 48)) 0

/-- JS `Number(string)` restricted to plain decimal literals with optional
sign and fraction (the form prices take per the data model: "decimal
string"); whitespace-trimmed, the empty string is `0`, anything else
non-decimal is NaN (`none`).  Exponent/hex forms are not modelled — no
price in the spec or the claims uses them. -/
def jsNumber (s : String) : Option ℚ :=
  let l := ((s.toList.dropWhile isJsSpace).reverse.dropWhile isJsSpace).reverse
  if l.isEmpty then some 0
  else
    let signed : ℚ × List Char :=
      match l with
      | '-' :: t => (-1, t)
      | '+' :: t => (1, t)
      | _ => (1, l)
    let intPart := signed.2.takeWhile Char.isDigit
    let rest := signed.2.dropWhile Char.isDigit
    match rest with
    | [] => if intPart.isEmpty then none else some (signed.1 * digitsToNat intPart)
    | '.' :: frac =>
      let fracDigits := frac.takeWhile Char.isDigit
      let rest2 := frac.dropWhile Char.isDigit
      if !rest2.isEmpty then none
      else if intPart.isEmpty && fracDigits.isEmpty then none
      else some (signed.1 *
        ((digitsToNat intPart : ℚ) + (digitsToNat fracDigits : ℚ) / (10 ^ fracDigits.length)))
    | _ => none

/-- `getProductPrice` from `src/server.js`: the parsed price of the first
variant, `none` when there is no variant array, no first variant, no price
field, or the price does not parse to a finite number. -/
def getProductPrice (p : Product) : Option ℚ :=
  match p.variants with
  | some (v :: _) =>
    match v.price with
    | none => none
    | some raw => jsNumber raw
  | _ => none

/-- `amount.toFixed(2)` on the exact rational amount: round to cents, ties
to the larger value, and render with two decimals. -/
def toFixedTwo (a : ℚ) : String :=
  let cents : Int := Rat.floor (a * 100 + 1 / 2)
  let sign := if cents < 0 then "-" else ""
  let n := cents.natAbs
  let whole := n / 100
  let frac := n % 100
  sign ++ toString whole ++ "." ++ (if frac < 10 then "0" else "") ++ toString frac

/-- `formatPrice` from `src/server.js`. -/
def formatPrice : Option ℚ → Option String
  | none => none
  | some a => some ("$" ++ toFixedTwo a)

/-- `product.image?.src ?? product.images?.[0]?.src ?? ''`. -/
def productImage (p : Product) : String :=
  match p.image with
  | some img => img.src
  | none =>
    match p.images with
    | img :: _ => img.src
    | [] => ""

/-- The best-match record `selectProduct` builds from a product. -/
def toMatchResult (p : Product) : MatchResult where
  id := p.id
  title := p.title
  description := normalizeDescription (p.body_html.getD "")
  image := productImage p
  tags := p.tags.getD ""
  product_type := p.product_type.getD ""
  price_display := formatPrice (getProductPrice p)

/-- The loop of `selectProduct`: scan the products, keeping the current
best record and best score, updating only on a strictly greater score
(`score > bestScore`). -/
def selectProductGo (keywords : List String) :
    List Product → Option MatchResult → Int → Option MatchResult
  | [], bestProduct, _ => bestProduct
  | p :: rest, bestProduct, bestScore =>
    let score : Int := scoreProduct keywords (buildSearchableString p)
    if bestScore < score then
      selectProductGo keywords rest (some (toMatchResult p)) score
    else
      selectProductGo keywords rest bestProduct bestScore

/-- `selectProduct` from `src/server.js`: best product is initially `null`
and the best score the sentinel `-1`. -/
def selectProduct (products : List Product) (query : String) : Option MatchResult :=
  selectProductGo (tokenize query) products none (-1)

/-- The summed variant inventory computed inside `loadProducts`:
`variants.reduce((sum, v) => sum + Number(v?.inventory_quantity ?? 0), 0)`
when `variants` is an array, `0` otherwise. -/
def sumInventory (p : Product) : Int :=
  match p.variants with
  | some vs => vs.foldl (fun sum v => sum + v.inventory_quantity.getD 0) 0
  | none => 0

/-- JS `x > 0` on a possibly absent number field. -/
def jsGtZero : Option Int → Bool
  | some v => 0 < v
  | none => false

/-- The pure filtering/augmentation pipeline of `loadProducts` (lines
145–159 of `src/server.js`), applied to the concatenated caches: drop
drafts, splice in the summed inventory, keep `inventory > 0`.  The disk
cache and lazy-refresh I/O around it does not alter this mapping. -/
def loadProducts (products : List Product) : List Product :=
  ((products.filter (fun p => p.status != some "draft")).map
    (fun p => { p with inventory := some (sumInventory p) })).filter
    (fun p => jsGtZero p.inventory)

/-- The `POST /webhooks/shopify/products` handler, over the decoded bytes.
Inputs: whether `SHOPIFY_WEBHOOK_SECRET` is set, the base64-decoded
`X-Shopify-Hmac-Sha256` header, the base64-decoded freshly computed
HMAC-SHA256 digest of the raw body, and whether `refreshBaseProducts`
succeeds.  Output: HTTP status and whether a refresh ran.
`crypto.timingSafeEqual` on equal-length buffers is byte-list equality. -/
def shopifyWebhookRespond (secretSet : Bool) (headerBytes digestBytes : List Nat)
    (refreshOk : Bool) : Nat × Bool :=
  if !secretSet then (500, false)
  else if headerBytes.length != digestBytes.length then (401, false)
  else if headerBytes != digestBytes then (401, false)
  else if refreshOk then (200, true)
  else (500, true)

/-- The `query` field of a `POST /agent` body: absent, a string value, or a
non-string value carrying its JS falsiness (`!query`). -/
inductive BodyQuery where
  | missing
  | strVal (s : String)
  | nonString (falsy : Bool)
deriving DecidableEq

/-- JS falsiness of the `query` field (`!query`): `undefined` is falsy, a
string is falsy exactly when empty, a non-string carries its own flag. -/
def jsFalsyQuery : BodyQuery → Bool
  | .missing => true
  | .strVal s => s == ""
  | .nonString falsy => falsy

/-- Whether the `query` value is a string (`typeof query === 'string'`). -/
def isStringQuery : BodyQuery → Bool
  | .strVal _ => true
  | _ => false

/-- The 400 guard of the `POST /agent` handler:
`if (!query || typeof query !== 'string') return 400`. -/
def agentBadRequest (q : BodyQuery) : Bool :=
  jsFalsyQuery q || !isStringQuery q

/-- `Boolean(stripeSecretKey)`: a non-empty secret means Stripe is
configured. -/
def stripeConfiguredOf (stripeSecretKey : String) : Bool :=
  !(stripeSecretKey == "")

/-- The `GET /config` response body. -/
structure ConfigResponse where
  publishableKey : Option String
  stripeConfigured : Bool
deriving DecidableEq

/-- The `GET /config` handler: `stripePublishableKey || null` and the
configured flag. -/
def configResponse (stripePublishableKey stripeSecretKey : String) : ConfigResponse where
  publishableKey := if stripePublishableKey == "" then none else some stripePublishableKey
  stripeConfigured := stripeConfiguredOf stripeSecretKey

/-- A payment intent as consumed by the agent endpoint. -/
structure PaymentIntent where
  id : String
  client_secret : String
deriving DecidableEq

/-- `createPaymentIntent` from `src/server.js`.  The real Stripe client
(`stripe.paymentIntents.create`) is an external call, passed in as
`stripeCreate`; when no secret is configured (`stripe` is `null`) the
deterministic mock is returned. -/
def createPaymentIntent (stripeSecretKey : String)
    (stripeCreate : Int → String → PaymentIntent)
    (amountCents : Int) (productId : String) : PaymentIntent :=
  if stripeConfiguredOf stripeSecretKey then stripeCreate amountCents productId
  else { id := "pi_mock_" ++ productId, client_secret := "pi_mock_client_secret" }

/-- The upstream response seen by `refreshBaseProducts`: the `ok` flag and
the parsed `data.products` field (absent modelled as `none`, defaulted by
`?? []`). -/
structure FetchResponse where
  ok : Bool
  products : Option (List Product)
deriving DecidableEq

/-- The mutable state touched by `refreshBaseProducts`: the in-memory
`baseProductsCache` and the on-disk products file (`none` = never
written). -/
structure CatalogState where
  baseProductsCache : List Product
  productsFile : Option (List Product)
deriving DecidableEq

/-- `refreshBaseProducts` from `src/server.js` as a state transformer.
`credentialsOk` is `shopifyStoreDomain && shopifyAccessToken`; `resp` is
the result of the `fetch` (`none` = network rejection).  Throws are
modelled as `Except.error`; the returned state is the state after the
call. -/
def refreshBaseProducts (credentialsOk : Bool) (resp : Option FetchResponse)
    (st : CatalogState) : Except String Unit × CatalogState :=
  if !credentialsOk then (Except.error "Missing Shopify credentials", st)
  else
    match resp with
    | none => (Except.error "fetch rejected", st)
    | some r =>
      if !r.ok then (Except.error "Shopify API responded with an error status", st)
      else
        let cache := r.products.getD []
        (Except.ok (), { baseProductsCache := cache, productsFile := some cache })

/-- The spec's example catalog: the Red Mug entry. -/
def redMug : Product :=
  { id := "1001", title := "Red Mug", tags := some "kitchen" }

/-- The spec's example catalog: the Blue Plate entry. -/
def bluePlate : Product :=
  { id := "1002", title := "Blue Plate" }

/-- A concrete active, stocked product used to instantiate the catalog
invariants. -/
def stockedSample : Product :=
  { id := "1003", title := "Sample", status := some "active",
    variants := some [{ inventory_quantity := some 5 }] }

lemma foldl_count_eq {α : Type} (p : α → Bool) (l : List α) (n : Nat) :
    l.foldl (fun s x => if p x then s + 1 else s) n = n + l.countP p := by
  induction l generalizing n with
  | nil => simp
  | cons x xs ih =>
    simp only [List.foldl_cons, List.countP_cons]
    by_cases hx : p x = true
    · rw [if_pos hx, ih, if_pos hx]
      omega
    · rw [if_neg hx, ih, if_neg hx]
      omega

lemma scoreProduct_eq_countP (ks : List String) (t : String) :
    scoreProduct ks t = ks.countP (fun term => stringIncludes t term) := by
  simpa using foldl_count_eq (fun term => stringIncludes t term) ks 0

lemma selectProductGo_of_le (ks : List String) :
    ∀ (ps : List Product) (best : Option MatchResult) (bscore : Int),
      (∀ p ∈ ps, (productScore ks p : Int) ≤ bscore) →
      selectProductGo ks ps best bscore = best := by
  intro ps
  induction ps with
  | nil => intro best bscore _; rfl
  | cons p rest ih =>
    intro best bscore h
    have hp : ¬ bscore < (productScore ks p : Int) :=
      not_lt.mpr (h p (List.mem_cons_self _ _))
    simp only [productScore] at hp
    simp only [selectProductGo]
    rw [if_neg hp]
    exact ih best bscore (fun r hr => h r (List.mem_cons_of_mem _ hr))

lemma selectProductGo_beats (ks : List String) :
    ∀ (ps : List Product) (best : Option MatchResult) (bscore : Int),
      (∃ p ∈ ps, bscore < (productScore ks p : Int)) →
      ∃ (i : Nat) (w : Product), ps[i]? = some w ∧
        selectProductGo ks ps best bscore = some (toMatchResult w) ∧
        bscore < (productScore ks w : Int) ∧
        (∀ (j : Nat) (r : Product), ps[j]? = some r →
          productScore ks r ≤ productScore ks w) ∧
        (∀ (j : Nat) (r : Product), ps[j]? = some r → j < i →
          productScore ks r < productScore ks w) := by
  intro ps
  induction ps with
  | nil =>
    intro best bscore h
    rcases h with ⟨p, hp, _⟩
    simp at hp
  | cons p rest ih =>
    intro best bscore h
    by_cases hbeat : bscore < (productScore ks p : Int)
    · have hbeat' := hbeat
      simp only [productScore] at hbeat'
      have hgo : selectProductGo ks (p :: rest) best bscore =
          selectProductGo ks rest (some (toMatchResult p))
            (scoreProduct ks (buildSearchableString p) : Int) := by
        simp only [selectProductGo]
        rw [if_pos hbeat']
      by_cases hall : ∀ r ∈ rest, productScore ks r ≤ productScore ks p
      · refine ⟨0, p, by simp, ?_, hbeat, ?_, ?_⟩
        · rw [hgo]
          exact selectProductGo_of_le ks rest _ _
            (fun r hr => by exact_mod_cast hall r hr)
        · intro j r hjr
          cases j with
          | zero =>
            simp only [List.getElem?_cons_zero, Option.some.injEq] at hjr
            subst hjr
            exact le_refl _
          | succ j =>
            rw [List.getElem?_cons_succ] at hjr
            exact hall r (List.getElem?_mem hjr)
        · intro j r _ hj
          exact absurd hj (Nat.not_lt_zero j)
      · push_neg at hall
        rcases hall with ⟨r0, hr0mem, hr0⟩
        have hex : ∃ r ∈ rest,
            (productScore ks p : Int) < (productScore ks r : Int) :=
          ⟨r0, hr0mem, by exact_mod_cast hr0⟩
        rcases ih (some (toMatchResult p)) (productScore ks p : Int) hex with
          ⟨i, w, hiw, hres, hlt, hmax, hties⟩
        have hpw : productScore ks p < productScore ks w := by exact_mod_cast hlt
        refine ⟨i + 1, w, ?_, ?_, hbeat.trans hlt, ?_, ?_⟩
        · rw [List.getElem?_cons_succ]
          exact hiw
        · rw [hgo]
          simpa only [productScore] using hres
        · intro j r hjr
          cases j with
          | zero =>
            simp only [List.getElem?_cons_zero, Option.some.injEq] at hjr
            subst hjr
            exact le_of_lt hpw
          | succ j =>
            rw [List.getElem?_cons_succ] at hjr
            exact hmax j r hjr
        · intro j r hjr hj
          cases j with
          | zero =>
            simp only [List.getElem?_cons_zero, Option.some.injEq] at hjr
            subst hjr
            exact hpw
          | succ j =>
            rw [List.getElem?_cons_succ] at hjr
            exact hties j r hjr (Nat.lt_of_succ_lt_succ hj)
    · have hbeat' := hbeat
      simp only [productScore] at hbeat'
      have hgo : selectProductGo ks (p :: rest) best bscore =
          selectProductGo ks rest best bscore := by
        simp only [selectProductGo]
        rw [if_neg hbeat']
      rcases h with ⟨q0, hq0mem, hq0⟩
      have hq0rest : q0 ∈ rest := by
        rcases List.mem_cons.mp hq0mem with h1 | h1
        · subst h1
          exact absurd hq0 hbeat
        · exact h1
      rcases ih best bscore ⟨q0, hq0rest, hq0⟩ with ⟨i, w, hiw, hres, hlt, hmax, hties⟩
      have hple : (productScore ks p : Int) ≤ bscore := not_lt.mp hbeat
      have hpw : productScore ks p < productScore ks w := by
        exact_mod_cast lt_of_le_of_lt hple hlt
      refine ⟨i + 1, w, ?_, ?_, hlt, ?_, ?_⟩
      · rw [List.getElem?_cons_succ]
        exact hiw
      · rw [hgo]
        exact hres
      · intro j r hjr
        cases j with
        | zero =>
          simp only [List.getElem?_cons_zero, Option.some.injEq] at hjr
          subst hjr
          exact le_of_lt hpw
        | succ j =>
          rw [List.getElem?_cons_succ] at hjr
          exact hmax j r hjr
      · intro j r hjr hj
        cases j with
        | zero =>
          simp only [List.getElem?_cons_zero, Option.some.injEq] at hjr
          subst hjr
          exact hpw
        | succ j =>
          rw [List.getElem?_cons_succ] at hjr
          exact hties j r hjr (Nat.lt_of_succ_lt_succ hj)

lemma neg_one_lt_score (ks : List String) (p : Product) :
    (-1 : Int) < (productScore ks p : Int) :=
  lt_of_lt_of_le neg_one_lt_zero (Int.natCast_nonneg _)

/-- C1: for every candidate list and query, `selectProduct` returns the
match record of the product with the maximum keyword-overlap score — where
a product's score is the number of query tokens, counted with
multiplicity, occurring as substrings of its lower-cased space-joined
searchable text — and ties go to the earliest product in list order
(strictly-greater comparison). -/
theorem selectProduct_max (ps : List Product) (q : String) (h : ps ≠ []) :
    (∀ (ks : List String) (t : String),
      scoreProduct ks t = ks.countP (fun term => stringIncludes t term)) ∧
    ∃ (i : Nat) (w : Product), ps[i]? = some w ∧
      selectProduct ps q = some (toMatchResult w) ∧
      (∀ (j : Nat) (r : Product), ps[j]? = some r →
        productScore (tokenize q) r ≤ productScore (tokenize q) w) ∧
      (∀ (j : Nat) (r : Product), ps[j]? = some r → j < i →
        productScore (tokenize q) r < productScore (tokenize q) w) := by
  refine ⟨scoreProduct_eq_countP, ?_⟩
  rcases List.exists_cons_of_ne_nil h with ⟨p, t, rfl⟩
  have hex : ∃ r ∈ p :: t, (-1 : Int) < (productScore (tokenize q) r : Int) :=
    ⟨p, List.mem_cons_self _ _, neg_one_lt_score _ _⟩
  rcases selectProductGo_beats (tokenize q) (p :: t) none (-1) hex with
    ⟨i, w, hiw, hres, _, hmax, hties⟩
  exact ⟨i, w, hiw, hres, hmax, hties⟩

/-- C1 witness: the spec's example — query "red mug" against the catalog
`[redMug, bluePlate]`. -/
theorem selectProduct_max_witness :
    (∀ (ks : List String) (t : String),
      scoreProduct ks t = ks.countP (fun term => stringIncludes t term)) ∧
    ∃ (i : Nat) (w : Product), ([redMug, bluePlate])[i]? = some w ∧
      selectProduct [redMug, bluePlate] "red mug" = some (toMatchResult w) ∧
      (∀ (j : Nat) (r : Product), ([redMug, bluePlate])[j]? = some r →
        productScore (tokenize "red mug") r ≤ productScore (tokenize "red mug") w) ∧
      (∀ (j : Nat) (r : Product), ([redMug, bluePlate])[j]? = some r → j < i →
        productScore (tokenize "red mug") r < productScore (tokenize "red mug") w) :=
  selectProduct_max [redMug, bluePlate] "red mug" (by decide)

/-- C5: `selectProduct` returns `null` exactly when the candidate list is
empty — every product scores at least 0, which beats the initial sentinel
score of -1. -/
theorem selectProduct_none_iff (ps : List Product) (q : String) :
    selectProduct ps q = none ↔ ps = [] := by
  constructor
  · intro hnone
    by_contra hne
    rcases List.exists_cons_of_ne_nil hne with ⟨p, t, rfl⟩
    have hex : ∃ r ∈ p :: t, (-1 : Int) < (productScore (tokenize q) r : Int) :=
      ⟨p, List.mem_cons_self _ _, neg_one_lt_score _ _⟩
    rcases selectProductGo_beats (tokenize q) (p :: t) none (-1) hex with
      ⟨_, w, _, hres, _, _, _⟩
    have : some (toMatchResult w) = (none : Option MatchResult) := hres.symm.trans hnone
    cases this
  · rintro rfl
    rfl

/-- C6: the empty query tokenizes to the empty token list, every product
then scores 0, and `selectProduct` on a non-empty list returns the first
product (as its match record) with score 0. -/
theorem selectProduct_empty_query :
    tokenize "" = [] ∧
    ∀ (p : Product) (rest : List Product),
      productScore (tokenize "") p = 0 ∧
      selectProduct (p :: rest) "" = some (toMatchResult p) := by
  have htok : tokenize "" = [] := by decide
  have hzero : ∀ r : Product, productScore (tokenize "") r = 0 := by
    intro r
    rw [htok]
    rfl
  refine ⟨htok, fun p rest => ⟨hzero p, ?_⟩⟩
  have hpos : (-1 : Int) < (scoreProduct (tokenize "") (buildSearchableString p) : Int) :=
    neg_one_lt_score (tokenize "") p
  have hgo : selectProduct (p :: rest) "" =
      selectProductGo (tokenize "") rest (some (toMatchResult p))
        (scoreProduct (tokenize "") (buildSearchableString p) : Int) := by
    show selectProductGo (tokenize "") (p :: rest) none (-1) = _
    simp only [selectProductGo]
    rw [if_pos hpos]
  rw [hgo]
  apply selectProductGo_of_le
  intro r hr
  have h1 : productScore (tokenize "") r = 0 := hzero r
  have h2 : productScore (tokenize "") p = 0 := hzero p
  simp only [productScore] at h1 h2
  simp only [productScore]
  rw [h1, h2]

lemma mem_loadProducts {l : List Product} {q : Product} (hq : q ∈ loadProducts l) :
    q.status ≠ some "draft" ∧ q.inventory = some (sumInventory q) ∧ 0 < sumInventory q := by
  unfold loadProducts at hq
  rcases List.mem_filter.mp hq with ⟨hmap, hgt⟩
  rcases List.mem_map.mp hmap with ⟨p, hpfilter, rfl⟩
  rcases List.mem_filter.mp hpfilter with ⟨_, hstat⟩
  refine ⟨bne_iff_ne.mp hstat, rfl, ?_⟩
  simpa [jsGtZero] using hgt

lemma foldl_add_zero :
    ∀ (vs : List Variant),
      (∀ v ∈ vs, v.inventory_quantity.getD 0 = (0 : Int)) →
      ∀ s : Int, vs.foldl (fun acc v => acc + v.inventory_quantity.getD 0) s = s := by
  intro vs
  induction vs with
  | nil => intro _ s; rfl
  | cons v rest ih =>
    intro h s
    simp only [List.foldl_cons]
    rw [h v (List.mem_cons_self _ _), add_zero]
    exact ih (fun r hr => h r (List.mem_cons_of_mem _ hr)) s

lemma sumInventory_zero_of_all_zero (p : Product)
    (h : ∀ v ∈ p.variants.getD [], v.inventory_quantity.getD 0 = (0 : Int)) :
    sumInventory p = 0 := by
  unfold sumInventory
  cases hv : p.variants with
  | none => rfl
  | some vs =>
    rw [hv] at h
    simp only [Option.getD_some] at h
    exact foldl_add_zero vs h 0

/-- C2: every product surviving `loadProducts` has status other than
"draft" and a summed variant inventory strictly greater than zero; in
particular no surviving product has all its variants at zero inventory
(so such a product is excluded even when active). -/
theorem loadProducts_stock (l : List Product) :
    (∀ q ∈ loadProducts l,
      q.status ≠ some "draft" ∧ q.inventory = some (sumInventory q) ∧
        0 < sumInventory q) ∧
    (∀ q ∈ loadProducts l,
      ¬ ∀ v ∈ q.variants.getD [], v.inventory_quantity.getD 0 = (0 : Int)) := by
  refine ⟨fun q hq => mem_loadProducts hq, fun q hq hall => ?_⟩
  have h1 := (mem_loadProducts hq).2.2
  rw [sumInventory_zero_of_all_zero q hall] at h1
  exact lt_irrefl 0 h1

/-- C2 witness: the active stocked sample survives `loadProducts` with its
summed inventory. -/
theorem loadProducts_stock_witness :
    ({ stockedSample with inventory := some 5 } : Product).status ≠ some "draft" ∧
    ({ stockedSample with inventory := some 5 } : Product).inventory =
      some (sumInventory { stockedSample with inventory := some 5 }) ∧
    0 < sumInventory ({ stockedSample with inventory := some 5 } : Product) :=
  (loadProducts_stock [stockedSample]).1
    { stockedSample with inventory := some 5 } (by decide)

/-- C10: a product whose `variants` field is absent (or not an array) gets
inventory 0, and every product surviving `loadProducts` carries an actual
variant array whose inventory quantities sum to a positive number. -/
theorem loadProducts_variants_array (l : List Product) :
    (∀ p : Product, p.variants = none → sumInventory p = 0) ∧
    (∀ q ∈ loadProducts l, ∃ vs, q.variants = some vs ∧ 0 < sumInventory q) := by
  refine ⟨fun p hp => by simp [sumInventory, hp], fun q hq => ?_⟩
  have h := (mem_loadProducts hq).2.2
  cases hv : q.variants with
  | none =>
    rw [show sumInventory q = 0 by simp [sumInventory, hv]] at h
    exact absurd h (lt_irrefl 0)
  | some vs => exact ⟨vs, rfl, h⟩

/-- C10 witness: `bluePlate` has no variant array hence inventory 0; the
stocked sample survives with a variant array summing to 5. -/
theorem loadProducts_variants_array_witness :
    sumInventory bluePlate = 0 ∧
    ∃ vs, ({ stockedSample with inventory := some 5 } : Product).variants = some vs ∧
      0 < sumInventory ({ stockedSample with inventory := some 5 } : Product) :=
  ⟨(loadProducts_variants_array []).1 bluePlate (by decide),
   (loadProducts_variants_array [stockedSample]).2
     { stockedSample with inventory := some 5 } (by decide)⟩

/-- C3: webhook verification — unset secret means 500 and no refresh; any
difference (length or content) between the decoded header and the decoded
computed digest means 401 and no refresh; equality triggers the refresh,
answering 200 on success and 500 on failure. -/
theorem shopifyWebhook_spec (headerBytes digestBytes : List Nat) (refreshOk : Bool) :
    shopifyWebhookRespond false headerBytes digestBytes refreshOk = (500, false) ∧
    (headerBytes ≠ digestBytes →
      shopifyWebhookRespond true headerBytes digestBytes refreshOk = (401, false)) ∧
    shopifyWebhookRespond true digestBytes digestBytes refreshOk =
      (if refreshOk then 200 else 500, true) := by
  refine ⟨rfl, ?_, ?_⟩
  · intro hne
    by_cases hlen : headerBytes.length = digestBytes.length
    · have h1 : (headerBytes.length != digestBytes.length) = false := by simp [hlen]
      have h2 : (headerBytes != digestBytes) = true := bne_iff_ne.mpr hne
      simp [shopifyWebhookRespond, h1, h2]
    · have h1 : (headerBytes.length != digestBytes.length) = true := bne_iff_ne.mpr hlen
      simp [shopifyWebhookRespond, h1]
  · cases refreshOk <;> simp [shopifyWebhookRespond]

/-- C3 witness: concrete one-byte signatures — mismatch rejected, match
refreshed. -/
theorem shopifyWebhook_spec_witness :
    shopifyWebhookRespond false [116] [117] true = (500, false) ∧
    shopifyWebhookRespond true [116] [117] true = (401, false) ∧
    shopifyWebhookRespond true [117] [117] true = (200, true) := by
  obtain ⟨a, b, c⟩ := shopifyWebhook_spec [116] [117] true
  exact ⟨a, b (by decide), by simpa using c⟩

/-- C4 counterexample: the claim predicts any string query — the empty
string included — passes the 400 guard, but `!query` is true on the empty
string, so the handler answers 400 on it. -/
theorem agentBadRequest_empty_string :
    agentBadRequest (BodyQuery.strVal "") = true := by decide

/-- C4 amended: the handler responds 400 exactly when the `query` field is
missing, not a string, or the empty string; every non-empty string query
proceeds past the guard. -/
theorem agentBadRequest_iff (q : BodyQuery) :
    agentBadRequest q = true ↔
      (q = BodyQuery.missing ∨ (∃ b, q = BodyQuery.nonString b) ∨
        q = BodyQuery.strVal "") := by
  cases q with
  | missing => simp [agentBadRequest, jsFalsyQuery, isStringQuery]
  | strVal s => simp [agentBadRequest, jsFalsyQuery, isStringQuery]
  | nonString b => simp [agentBadRequest, jsFalsyQuery, isStringQuery]

/-- C7: when the refresh fails — missing credentials, a rejected fetch, or
a non-2xx upstream response — `refreshBaseProducts` reports an error and
leaves the cache and the products file exactly as they were. -/
theorem refreshBaseProducts_atomic (credentialsOk : Bool)
    (resp : Option FetchResponse) (st : CatalogState)
    (h : credentialsOk = false ∨ resp = none ∨ ∃ r, resp = some r ∧ r.ok = false) :
    (∃ e, (refreshBaseProducts credentialsOk resp st).1 = Except.error e) ∧
    (refreshBaseProducts credentialsOk resp st).2 = st := by
  rcases h with h | h | ⟨r, hr, hok⟩
  · subst h
    exact ⟨⟨"Missing Shopify credentials", rfl⟩, rfl⟩
  · subst h
    cases credentialsOk <;> simp [refreshBaseProducts]
  · subst hr
    cases credentialsOk <;> simp [refreshBaseProducts, hok]

/-- C7 witness: a refresh with missing credentials fails and preserves the
empty initial state. -/
theorem refreshBaseProducts_atomic_witness :
    (∃ e, (refreshBaseProducts false none ⟨[], none⟩).1 = Except.error e) ∧
    (refreshBaseProducts false none ⟨[], none⟩).2 = ⟨[], none⟩ :=
  refreshBaseProducts_atomic false none ⟨[], none⟩ (Or.inl rfl)

/-- C8: with no payment secret configured, `GET /config` reports
`stripeConfigured: false` and `createPaymentIntent` returns the
deterministic mock intent for every amount and product id. -/
theorem stripeMock_spec (stripePublishableKey stripeSecretKey : String)
    (stripeCreate : Int → String → PaymentIntent)
    (amountCents : Int) (productId : String)
    (h : stripeSecretKey = "") :
    (configResponse stripePublishableKey stripeSecretKey).stripeConfigured = false ∧
    createPaymentIntent stripeSecretKey stripeCreate amountCents productId =
      { id := "pi_mock_" ++ productId, client_secret := "pi_mock_client_secret" } := by
  subst h
  exact ⟨rfl, rfl⟩

/-- C8 witness: concrete publishable key, amount 100 and product id. -/
theorem stripeMock_spec_witness :
    (configResponse "pk_test_abc" "").stripeConfigured = false ∧
    createPaymentIntent "" (fun _ _ => ⟨"", ""⟩) 100 "42" =
      { id := "pi_mock_42", client_secret := "pi_mock_client_secret" } :=
  stripeMock_spec "pk_test_abc" "" (fun _ _ => ⟨"", ""⟩) 100 "42" rfl

/-- C9: `normalizeDescription` on the spec's example input strips the
paragraph tags to spaces, decodes the ampersand entity, collapses the
whitespace and trims: the result is exactly "A & B". -/
theorem normalizeDescription_example :
    normalizeDescription "<p>A &amp; B</p>" = "A & B" := by decide

end HexDemo
